import Mathlib

/-!
Verification of the `youtube-search` gateway (Go) against its
natural-language specification.

The development shallowly embeds the relevant Go functions:

* Go strings are modelled as `List Nat` of Unicode code points (the
  repository only manipulates ASCII in the places the claims touch;
  `strings.ToLower` / `strings.TrimSpace` are modelled on the
  ASCII / Latin-1 range they act on in those call sites).
* Fallible Go code (`error` returns) becomes `Option` / `Except`.
* Randomness (`crypto/rand.Read`, `math/rand/v2.IntN`) is passed in as an
  explicit oracle argument.
* Network and database effects are passed in as explicit oracle results,
  so every definition is executable.
-/

namespace YtSearch

/-! ## Go string primitives (strings as lists of code points) -/

/-- Code points of a Lean string literal, used to write Go string constants. -/
def goStr (s : String) : List Nat :=
  s.toList.map Char.toNat

/-- Model of Go `unicode.IsSpace` on the Latin-1 range: tab, LF, VT, FF, CR,
space, NEL (U+0085) and NBSP (U+00A0).  The queries and markers the claims
are about contain only such white space. -/
def isGoSpace (c : Nat) : Bool :=
  c == 9 || c == 10 || c == 11 || c == 12 || c == 13 || c == 32 || c == 133 || c == 160

/-- Model of Go `strings.ToLower` on one code point (ASCII case mapping,
which is how `ToLower` acts on the ASCII letters used by the claims). -/
def goToLowerChar (c : Nat) : Nat :=
  if 65 ≤ c && c ≤ 90 then c + 32 else c

/-- Model of Go `strings.ToLower`. -/
def goToLower (s : List Nat) : List Nat :=
  s.map goToLowerChar

/-- Model of Go `strings.TrimSpace`: drop white space from the front, then
from the back. -/
def goTrimSpace (s : List Nat) : List Nat :=
  List.rdropWhile isGoSpace (List.dropWhile isGoSpace s)

/-! ## Cache-key derivation (`createCacheKey`, `src/unnamed/part_000`)

`createCacheKey` lower-cases and trims the query, puts the two values in a
`url.Values` and returns `Encode()`.  `url.Values.Encode` emits the keys in
sorted order (`"query" < "search_type"`) and escapes each value with
`url.QueryEscape`. -/

/-- The two upstream channels (`SearchType` in `src/unnamed/part_008`);
`SearchTypeYouTube = 0`, `SearchTypeYouTubeMusic = 1`. -/
inductive SearchType
  | youtube
  | youtubeMusic
deriving DecidableEq

/-- `fmt.Sprintf("%v", searchType)` on the underlying `int` value. -/
def searchTypeGoString : SearchType → List Nat
  | .youtube => goStr (r"0")
  | .youtubeMusic => goStr (r"1")

/-- Byte kept verbatim by Go `url.QueryEscape`: alphanumerics and `-._~`. -/
def isUnreservedQueryByte (c : Nat) : Bool :=
  (48 ≤ c && c ≤ 57) || (65 ≤ c && c ≤ 90) || (97 ≤ c && c ≤ 122) ||
    c == 45 || c == 46 || c == 95 || c == 126

/-- Upper-case hexadecimal digit, as emitted by Go `url.QueryEscape`. -/
def hexDigitChar (n : Nat) : Nat :=
  if n < 10 then 48 + n else 55 + n

/-- Go `url.QueryEscape` of one code point: unreserved bytes are kept,
space becomes `+`, anything else becomes `%XX`. -/
def queryEscapeChar (c : Nat) : List Nat :=
  if isUnreservedQueryByte c then [c]
  else if c == 32 then [43]
  else [37, hexDigitChar (c / 16 % 16), hexDigitChar (c % 16)]

/-- Go `url.QueryEscape`. -/
def queryEscape (s : List Nat) : List Nat :=
  s.foldr (fun c acc => queryEscapeChar c ++ acc) []

/-- `(srv *Server) createCacheKey` from `src/unnamed/part_000`:
normalize the query (`ToLower ∘ TrimSpace`), then `url.Values.Encode` of
`{"query": q, "search_type": fmt.Sprintf("%v", searchType)}` — the keys come
out in sorted order, so the encoding is
`query=<esc q>&search_type=<esc st>`. -/
def createCacheKey (searchType : SearchType) (query : List Nat) : List Nat :=
  let q := goToLower (goTrimSpace query)
  goStr (r"query=") ++ queryEscape q ++
    goStr (r"&search_type=") ++ queryEscape (searchTypeGoString searchType)

/-- The specification's `normalize`: trim surrounding white space and
lower-case (this is also exactly the normalization step inside
`createCacheKey`). -/
def normalizeQuery (q : List Nat) : List Nat :=
  goToLower (goTrimSpace q)

/-! ### Normalization lemmas -/

theorem isGoSpace_eq_false_of_ge (c : Nat) (h : 65 ≤ c) (h2 : c ≤ 122) :
    isGoSpace c = false := by
  simp only [isGoSpace, Bool.or_eq_false_iff, beq_eq_false_iff_ne, ne_eq]
  omega

theorem isGoSpace_goToLowerChar (c : Nat) :
    isGoSpace (goToLowerChar c) = isGoSpace c := by
  unfold goToLowerChar
  split
  · next h =>
      simp only [Bool.and_eq_true, decide_eq_true_eq] at h
      rw [isGoSpace_eq_false_of_ge c (by omega) (by omega),
        isGoSpace_eq_false_of_ge (c + 32) (by omega) (by omega)]
  · rfl

theorem goToLowerChar_idem (c : Nat) :
    goToLowerChar (goToLowerChar c) = goToLowerChar c := by
  unfold goToLowerChar
  split
  · next h =>
      simp only [Bool.and_eq_true, decide_eq_true_eq] at h
      rw [if_neg]
      simp only [Bool.and_eq_true, decide_eq_true_eq, not_and]
      omega
  · rfl

theorem goToLower_idem (s : List Nat) : goToLower (goToLower s) = goToLower s := by
  unfold goToLower
  rw [List.map_map]
  apply List.map_congr_left
  intro c _
  exact goToLowerChar_idem c

theorem isGoSpace_comp_goToLowerChar : (isGoSpace ∘ goToLowerChar) = isGoSpace :=
  funext isGoSpace_goToLowerChar

theorem dropWhile_goToLower (s : List Nat) :
    List.dropWhile isGoSpace (goToLower s) = goToLower (List.dropWhile isGoSpace s) := by
  unfold goToLower
  rw [List.dropWhile_map, isGoSpace_comp_goToLowerChar]

theorem rdropWhile_goToLower (s : List Nat) :
    List.rdropWhile isGoSpace (goToLower s) = goToLower (List.rdropWhile isGoSpace s) := by
  unfold List.rdropWhile goToLower
  rw [← List.map_reverse, List.dropWhile_map, ← List.map_reverse,
    isGoSpace_comp_goToLowerChar]

theorem goTrimSpace_goToLower (s : List Nat) :
    goTrimSpace (goToLower s) = goToLower (goTrimSpace s) := by
  unfold goTrimSpace
  rw [dropWhile_goToLower, rdropWhile_goToLower]

theorem dropWhile_rdropWhile_of_dropped (p : Nat → Bool) (m : List Nat)
    (hm : List.dropWhile p m = m) :
    List.dropWhile p (List.rdropWhile p m) = List.rdropWhile p m := by
  have hp := List.rdropWhile_prefix p m
  obtain ⟨t, ht⟩ := hp
  cases hr : List.rdropWhile p m with
  | nil => simp
  | cons a l =>
      rw [hr] at ht
      apply List.dropWhile_eq_self_iff.mpr
      intro hl
      have hhead := List.dropWhile_eq_self_iff.mp hm
      subst ht
      have h0 : 0 < (a :: l ++ t).length := by simp
      have := hhead h0
      simpa using this

theorem goTrimSpace_idem (s : List Nat) :
    goTrimSpace (goTrimSpace s) = goTrimSpace s := by
  unfold goTrimSpace
  rw [dropWhile_rdropWhile_of_dropped isGoSpace _ (List.dropWhile_idempotent _ _),
    List.rdropWhile_idempotent]

theorem normalizeQuery_idem (q : List Nat) :
    normalizeQuery (normalizeQuery q) = normalizeQuery q := by
  unfold normalizeQuery
  rw [goTrimSpace_goToLower, goTrimSpace_idem, goToLower_idem]

/-- C3.  Cache-key fingerprints are invariant under query normalization:
`createCacheKey(channel, q) = createCacheKey(channel, normalize(q))` for the
normalization that trims surrounding white space and lower-cases, for every
channel and every query; the key encoding itself is a deterministic function
of the channel discriminator and the normalized query (sorted-key
`url.Values.Encode`). -/
theorem createCacheKey_normalize_invariant (st : SearchType) (q : List Nat) :
    createCacheKey st q = createCacheKey st (normalizeQuery q) := by
  unfold createCacheKey
  have : goToLower (goTrimSpace (normalizeQuery q)) = goToLower (goTrimSpace q) := by
    have h1 : goTrimSpace (normalizeQuery q) = normalizeQuery q := by
      unfold normalizeQuery
      rw [goTrimSpace_goToLower, goTrimSpace_idem]
    rw [h1]
    exact goToLower_idem _
  rw [this]

/-- C10.  The two channels never share a cache key: for every query, the
fingerprint for `SearchTypeYouTube` differs from the fingerprint for
`SearchTypeYouTubeMusic`, because the encoded `search_type` discriminator
(`0` vs `1`) is always part of the key. -/
theorem createCacheKey_channels_distinct (q : List Nat) :
    createCacheKey SearchType.youtube q ≠ createCacheKey SearchType.youtubeMusic q := by
  unfold createCacheKey
  intro h
  simp only [List.append_assoc] at h
  have h2 := List.append_cancel_left h
  have h3 := List.append_cancel_left h2
  have h4 := List.append_cancel_left h3
  revert h4
  decide

/-! ## Randomized IPv6 source-address synthesis (`src/http_client.go`)

`GenerateRandomIpV6` parses `client.Ipv6Block` with `net.ParseCIDR`,
normalizes the network base address with `To16` (16 bytes, already masked to
the prefix by `ParseCIDR`), validates the prefix length, and overwrites the
bytes after the fixed prefix with `crypto/rand` bytes.  The parse step and
the random source are passed in as oracles; the Go function's sentinel
return `""` is modelled as `none`, a synthesized address as `some` of its
16 raw bytes (the final `net.IP.String()` rendering is a bijective
presentation step and is not modelled). -/

/-- Result of `net.ParseCIDR` + `IP.To16`: the (masked) base address bytes
and the prefix length in bits from `Mask.Size()`; `none` when `ParseCIDR`
fails. -/
structure ParsedCidr where
  base : List Nat
  prefixLen : Nat
deriving DecidableEq

/-- `(client *HttpClient) GenerateRandomIpV6` from `src/http_client.go`:
on a parse failure, a base that is not 16 bytes, a prefix length above 128,
or a prefix length that is not a multiple of 16, return `none` (the Go
function returns `""`); otherwise keep the first `prefixLen/8` base bytes
and fill the remaining `16 - prefixLen/8` bytes from the random oracle. -/
def GenerateRandomIpV6 (parsed : Option ParsedCidr) (randByte : Nat → Nat) :
    Option (List Nat) :=
  match parsed with
  | none => none
  | some p =>
      if p.base.length ≠ 16 then none
      else if p.prefixLen > 128 then none
      else if p.prefixLen % 16 ≠ 0 then none
      else
        some ((List.range 16).map fun i =>
          if i < p.prefixLen / 8 then p.base.getD i 0
          else randByte (i - p.prefixLen / 8) % 256)

theorem GenerateRandomIpV6_none (randByte : Nat → Nat) :
    GenerateRandomIpV6 none randByte = none := rfl

theorem GenerateRandomIpV6_some (base : List Nat) (prefixLen : Nat)
    (randByte : Nat → Nat) :
    GenerateRandomIpV6 (some ⟨base, prefixLen⟩) randByte =
      (if base.length ≠ 16 then none
      else if prefixLen > 128 then none
      else if prefixLen % 16 ≠ 0 then none
      else
        some ((List.range 16).map fun i =>
          if i < prefixLen / 8 then base.getD i 0
          else randByte (i - prefixLen / 8) % 256)) := rfl

/-- The local-address selection of `(client *HttpClient) TransportDialContext`
(`src/http_client.go`): when the destination supports IPv6 and a block is
configured, try to synthesize a random source address; if synthesis yields
the sentinel (`""`/`none`) or either precondition fails, the dialer keeps
`LocalAddr = nil` (the default, unconstrained source) and the dial still
proceeds. -/
def transportDialLocalAddr (ipv6Supported : Bool) (ipv6BlockConfigured : Bool)
    (parsed : Option ParsedCidr) (randByte : Nat → Nat) : Option (List Nat) :=
  if ipv6Supported && ipv6BlockConfigured then
    match GenerateRandomIpV6 parsed randByte with
    | some ip => some ip
    | none => none
  else none

/-- C1.  Address synthesis correctness.  (a) For a configured block whose
prefix length is a multiple of 16 and at most 128 (and whose base is a
16-byte IPv6 address), every synthesized address is exactly 16 bytes, its
first `prefixLen/8` bytes (hence its first `prefixLen` bits) are the block's
prefix bytes unchanged, and every remaining byte comes from the
cryptographically secure random oracle.  (b) For a block whose prefix length
is not a multiple of 16, or that fails to parse, `GenerateRandomIpV6`
always returns the sentinel and `TransportDialContext` falls back to the
default (unconstrained) local source address, whatever the reachability
check and block configuration say. -/
theorem generateRandomIpV6_spec :
    (∀ (base : List Nat) (prefixLen : Nat) (randByte : Nat → Nat),
      base.length = 16 → prefixLen ≤ 128 → prefixLen % 16 = 0 →
      ∃ out, GenerateRandomIpV6 (some ⟨base, prefixLen⟩) randByte = some out ∧
        out.length = 16 ∧
        (∀ i, i < prefixLen / 8 → out.getD i 0 = base.getD i 0) ∧
        (∀ i, prefixLen / 8 ≤ i → i < 16 →
          out.getD i 0 = randByte (i - prefixLen / 8) % 256)) ∧
    (∀ (parsed : Option ParsedCidr) (randByte : Nat → Nat)
      (ipv6Supported ipv6BlockConfigured : Bool),
      (parsed = none ∨ ∃ p, parsed = some p ∧ p.prefixLen % 16 ≠ 0) →
      GenerateRandomIpV6 parsed randByte = none ∧
        transportDialLocalAddr ipv6Supported ipv6BlockConfigured parsed randByte = none) := by
  constructor
  · intro base prefixLen randByte hlen hle hmul
    refine ⟨(List.range 16).map fun i =>
      if i < prefixLen / 8 then base.getD i 0
      else randByte (i - prefixLen / 8) % 256, ?_, ?_, ?_, ?_⟩
    · rw [GenerateRandomIpV6_some]
      rw [if_neg (by simp [hlen]), if_neg (by omega), if_neg (by omega)]
    · simp
    · intro i hi
      have hi16 : i < 16 := by omega
      rw [List.getD_eq_getElem?_getD, List.getElem?_map, List.getElem?_range hi16]
      simp [hi, List.getD_eq_getElem?_getD]
    · intro i hge hlt
      rw [List.getD_eq_getElem?_getD, List.getElem?_map, List.getElem?_range hlt]
      have hni : ¬ i < prefixLen / 8 := by omega
      simp [hni]
  · intro parsed randByte sup cfg hbad
    have hgen : GenerateRandomIpV6 parsed randByte = none := by
      rcases hbad with h | ⟨p, hp, hmul⟩
      · rw [h, GenerateRandomIpV6_none]
      · obtain ⟨pb, pl⟩ := p
        simp only at hmul
        rw [hp, GenerateRandomIpV6_some]
        by_cases h16 : pb.length = 16
        · rw [if_neg (by simp [h16])]
          by_cases h128 : pl > 128
          · rw [if_pos h128]
          · rw [if_neg h128, if_pos hmul]
        · rw [if_pos h16]
    refine ⟨hgen, ?_⟩
    unfold transportDialLocalAddr
    rw [hgen]
    split <;> rfl

/-- Witness for C1 at concrete inputs: the block `2001:db8::/32`
(base bytes `20 01 0d b8` followed by twelve zero bytes) with a constant
random oracle, and the misconfigured prefix length 60. -/
theorem generateRandomIpV6_spec_witness :
    (∃ out,
      GenerateRandomIpV6
        (some ⟨[32, 1, 13, 184, 0, 0, 0, 0, 0, 0, 0, 0, 0, 0, 0, 0], 32⟩)
        (fun _ => 171) = some out ∧
      out.length = 16 ∧
      (∀ i, i < 32 / 8 → out.getD i 0 =
        [32, 1, 13, 184, 0, 0, 0, 0, 0, 0, 0, 0, 0, 0, 0, 0].getD i 0) ∧
      (∀ i, 32 / 8 ≤ i → i < 16 → out.getD i 0 = (fun _ : Nat => 171) (i - 32 / 8) % 256)) ∧
    GenerateRandomIpV6
      (some ⟨[32, 1, 13, 184, 0, 0, 0, 0, 0, 0, 0, 0, 0, 0, 0, 0], 60⟩)
      (fun _ => 171) = none ∧
    transportDialLocalAddr true true
      (some ⟨[32, 1, 13, 184, 0, 0, 0, 0, 0, 0, 0, 0, 0, 0, 0, 0], 60⟩)
      (fun _ => 171) = none := by
  refine ⟨?_, ?_⟩
  · exact generateRandomIpV6_spec.1 _ 32 _ (by decide) (by decide) (by decide)
  · exact generateRandomIpV6_spec.2
      (some ⟨[32, 1, 13, 184, 0, 0, 0, 0, 0, 0, 0, 0, 0, 0, 0, 0], 60⟩)
      (fun _ => 171) true true (Or.inr ⟨_, rfl, by decide⟩)

/-! ## Cache eviction (`EnforceCacheLimit`, `src/unnamed/part_000`)

`EnforceCacheLimit` runs on a ticker; each tick it counts the rows of the
`caches` table, and when `Cfg.Caching.CacheMaxLimit` is non-negative and
exceeded it executes
`DELETE FROM caches WHERE key IN (SELECT key FROM caches ORDER BY timestamp ASC LIMIT toDelete)`
with `toDelete = count - max`.  We model one tick on the table state: rows
are `(key, timestamp)` pairs, `key` is the primary key (hence unique), and
`ORDER BY timestamp ASC LIMIT n` is modelled by a timestamp sort. -/

/-- A row of the `caches` table: the primary key and the `timestamp` column
(`value` is irrelevant to eviction). -/
structure CacheRow where
  key : Nat
  ts : Nat
deriving DecidableEq

/-- Insert a row into a timestamp-sorted list, keeping it sorted. -/
def insertByTs (e : CacheRow) : List CacheRow → List CacheRow
  | [] => [e]
  | x :: xs => if e.ts ≤ x.ts then e :: x :: xs else x :: insertByTs e xs

/-- `ORDER BY timestamp ASC`: sort the rows by the stored timestamp. -/
def sortByTs (rows : List CacheRow) : List CacheRow :=
  rows.foldr insertByTs []

/-- One eviction sweep of `(srv *Server) EnforceCacheLimit`: with a negative
configured maximum nothing is touched; with the count within the maximum
nothing is touched; otherwise the keys of the `count - max` oldest rows are
selected and every row carrying one of those keys is deleted. -/
def enforceCacheLimitSweep (cacheMaxLimit : Int) (rows : List CacheRow) :
    List CacheRow :=
  if cacheMaxLimit < 0 then rows
  else if (rows.length : Int) ≤ cacheMaxLimit then rows
  else
    let toDelete := (rows.length : Int) - cacheMaxLimit
    let doomed := ((sortByTs rows).take toDelete.toNat).map CacheRow.key
    rows.filter fun r => ¬ doomed.contains r.key

/-! ### Sorting lemmas -/

theorem nat_contains_iff (l : List Nat) (a : Nat) : l.contains a = true ↔ a ∈ l :=
  List.elem_iff

theorem insertByTs_perm (e : CacheRow) (l : List CacheRow) :
    (insertByTs e l).Perm (e :: l) := by
  induction l with
  | nil => exact List.Perm.refl _
  | cons x xs ih =>
      unfold insertByTs
      split
      · exact List.Perm.refl _
      · exact (List.Perm.cons x ih).trans (List.Perm.swap e x xs)

theorem sortByTs_perm (rows : List CacheRow) : (sortByTs rows).Perm rows := by
  induction rows with
  | nil => exact List.Perm.refl _
  | cons x xs ih =>
      unfold sortByTs
      simp only [List.foldr_cons]
      exact (insertByTs_perm x _).trans (List.Perm.cons x ih)

theorem insertByTs_pairwise (e : CacheRow) (l : List CacheRow)
    (h : List.Pairwise (fun a b => a.ts ≤ b.ts) l) :
    List.Pairwise (fun a b => a.ts ≤ b.ts) (insertByTs e l) := by
  induction l with
  | nil => simp [insertByTs]
  | cons x xs ih =>
      unfold insertByTs
      rcases h with _ | ⟨hx, hxs⟩
      split
      · next hle =>
          refine List.Pairwise.cons ?_ (List.Pairwise.cons hx hxs)
          intro b hb
          rcases List.mem_cons.mp hb with h1 | h2
          · subst h1
            exact hle
          · exact le_trans hle (hx _ h2)
      · next hgt =>
          refine List.Pairwise.cons ?_ (ih hxs)
          intro b hb
          have hmem := (insertByTs_perm e xs).mem_iff.mp hb
          rcases List.mem_cons.mp hmem with h1 | h2
          · subst h1
            omega
          · exact hx _ h2

theorem sortByTs_pairwise (rows : List CacheRow) :
    List.Pairwise (fun a b => a.ts ≤ b.ts) (sortByTs rows) := by
  induction rows with
  | nil => exact List.Pairwise.nil
  | cons x xs ih =>
      unfold sortByTs
      simp only [List.foldr_cons]
      exact insertByTs_pairwise x _ ih

/-- C2.  Cache capacity invariant.  With a negative configured maximum no
entry is ever deleted.  With a non-negative maximum that is exceeded and
unique keys (the primary-key invariant of the `caches` table), a sweep
deletes exactly `count - max` entries so that exactly `max` remain, every
surviving entry was present before the sweep, and every deleted entry is at
least as old (by stored timestamp) as every surviving one. -/
theorem enforceCacheLimitSweep_spec (cacheMaxLimit : Int) (rows : List CacheRow) :
    (cacheMaxLimit < 0 → enforceCacheLimitSweep cacheMaxLimit rows = rows) ∧
    (0 ≤ cacheMaxLimit → cacheMaxLimit < (rows.length : Int) →
      (rows.map CacheRow.key).Nodup →
      ((enforceCacheLimitSweep cacheMaxLimit rows).length : Int) = cacheMaxLimit ∧
      (∀ s ∈ enforceCacheLimitSweep cacheMaxLimit rows, s ∈ rows) ∧
      (∀ d ∈ rows, d ∉ enforceCacheLimitSweep cacheMaxLimit rows →
        ∀ s ∈ enforceCacheLimitSweep cacheMaxLimit rows, d.ts ≤ s.ts)) := by
  constructor
  · intro hneg
    unfold enforceCacheLimitSweep
    rw [if_pos hneg]
  · intro hpos hover hnodup
    have hsweep : enforceCacheLimitSweep cacheMaxLimit rows =
        rows.filter fun r =>
          ¬ (((sortByTs rows).take ((rows.length : Int) - cacheMaxLimit).toNat).map
              CacheRow.key).contains r.key := by
      unfold enforceCacheLimitSweep
      rw [if_neg (by omega), if_neg (by omega)]
    set t : Nat := ((rows.length : Int) - cacheMaxLimit).toNat with ht
    set doomed : List Nat := ((sortByTs rows).take t).map CacheRow.key with hdoomed
    have hperm := sortByTs_perm rows
    have hlen : (sortByTs rows).length = rows.length := hperm.length_eq
    have htle : t ≤ rows.length := by omega
    have hsortednodup : ((sortByTs rows).map CacheRow.key).Nodup := by
      exact (hperm.map CacheRow.key).symm.nodup hnodup
    have hsplit : (sortByTs rows).take t ++ (sortByTs rows).drop t = sortByTs rows :=
      List.take_append_drop t (sortByTs rows)
    have hinj : ∀ x ∈ rows, ∀ y ∈ rows, x.key = y.key → x = y := by
      intro x hx y hy hxy
      exact List.inj_on_of_nodup_map hnodup hx hy hxy
    have hdisj : ((sortByTs rows).take t).Disjoint ((sortByTs rows).drop t) := by
      have hnd : (sortByTs rows).Nodup := List.Nodup.of_map CacheRow.key hsortednodup
      rw [← hsplit] at hnd
      exact (List.nodup_append.mp hnd).2.2
    -- every element of the dropped (kept) part of the sort escapes `doomed`
    have hkeep : ∀ e ∈ (sortByTs rows).drop t, ¬ doomed.contains e.key = true := by
      intro e he hcon
      rw [hdoomed] at hcon
      simp only [List.contains_eq_any_beq, List.any_eq_true, beq_iff_eq] at hcon
      obtain ⟨k, hk, hke⟩ := hcon
      rw [List.mem_map] at hk
      obtain ⟨e2, he2, hke2⟩ := hk
      have he2' : e2 ∈ sortByTs rows := List.mem_of_mem_take he2
      have he' : e ∈ sortByTs rows := List.mem_of_mem_drop he
      have : e2 = e :=
        hinj e2 (hperm.mem_iff.mp he2') e (hperm.mem_iff.mp he') (by rw [hke2, hke])
      subst this
      exact hdisj he2 he
    have hdropkill : ∀ e ∈ (sortByTs rows).take t, doomed.contains e.key = true := by
      intro e he
      rw [hdoomed]
      simp only [List.contains_eq_any_beq, List.any_eq_true, beq_iff_eq]
      exact ⟨e.key, List.mem_map_of_mem CacheRow.key he, rfl⟩
    -- the filter over the sorted permutation is exactly the dropped part
    have hfiltersorted :
        (sortByTs rows).filter (fun r => ¬ doomed.contains r.key) =
          (sortByTs rows).drop t := by
      conv_lhs => rw [← hsplit]
      rw [List.filter_append]
      have h1 : ((sortByTs rows).take t).filter (fun r => ¬ doomed.contains r.key) = [] := by
        rw [List.filter_eq_nil_iff]
        intro a ha
        have := (nat_contains_iff _ _).mp (hdropkill a ha)
        simp [this]
      have h2 : ((sortByTs rows).drop t).filter (fun r => ¬ doomed.contains r.key) =
          (sortByTs rows).drop t := by
        rw [List.filter_eq_self]
        intro a ha
        have : a.key ∉ doomed := fun hm => hkeep a ha ((nat_contains_iff _ _).mpr hm)
        simp [this]
      rw [h1, h2, List.nil_append]
    have hpermfilter :
        (rows.filter fun r => ¬ doomed.contains r.key).Perm ((sortByTs rows).drop t) := by
      rw [← hfiltersorted]
      exact (List.Perm.filter _ hperm).symm
    refine ⟨?_, ?_, ?_⟩
    · rw [hsweep]
      have := hpermfilter.length_eq
      rw [this]
      have : ((sortByTs rows).drop t).length = rows.length - t := by
        simp [hlen]
      rw [this]
      omega
    · intro s hs
      rw [hsweep] at hs
      exact (List.mem_filter.mp hs).1
    · intro d hd hdnot s hs
      rw [hsweep] at hs
      rw [hsweep] at hdnot
      -- the deleted row is (up to key-injectivity) in the taken part of the sort
      have hdkill : doomed.contains d.key = true := by
        by_contra hcon
        have : d.key ∉ doomed := fun hm => hcon ((nat_contains_iff _ _).mpr hm)
        exact hdnot (List.mem_filter.mpr ⟨hd, by simp [this]⟩)
      have hdtake : d ∈ (sortByTs rows).take t := by
        rw [hdoomed] at hdkill
        simp only [List.contains_eq_any_beq, List.any_eq_true, beq_iff_eq] at hdkill
        obtain ⟨k, hk, hkd⟩ := hdkill
        rw [List.mem_map] at hk
        obtain ⟨e2, he2, hke2⟩ := hk
        have he2' : e2 ∈ rows := hperm.mem_iff.mp (by
          rw [← hsplit]
          exact List.mem_append.mpr (Or.inl he2))
        have : e2 = d := hinj e2 he2' d hd (by rw [hke2, hkd])
        subst this
        exact he2
      have hsdrop : s ∈ (sortByTs rows).drop t := by
        have hs' := List.mem_filter.mp hs
        have hsin : s ∈ sortByTs rows := hperm.mem_iff.mpr hs'.1
        rw [← hsplit] at hsin
        rcases List.mem_append.mp hsin with h1 | h2
        · exfalso
          have hns := hs'.2
          simp only [decide_eq_true_eq] at hns
          exact hns (hdropkill s h1)
        · exact h2
      have hpw := sortByTs_pairwise rows
      rw [← hsplit] at hpw
      exact (List.pairwise_append.mp hpw).2.2 d hdtake s hsdrop

/-- Witness for C2 at a concrete table: maximum 1 and rows
`(key 1, ts 10), (key 2, ts 5)` — the sweep keeps exactly the newer row. -/
theorem enforceCacheLimitSweep_spec_witness :
    enforceCacheLimitSweep (-1) [⟨1, 10⟩, ⟨2, 5⟩] = [⟨1, 10⟩, ⟨2, 5⟩] ∧
    ((enforceCacheLimitSweep 1 [⟨1, 10⟩, ⟨2, 5⟩]).length : Int) = 1 ∧
    (∀ s ∈ enforceCacheLimitSweep 1 [⟨1, 10⟩, ⟨2, 5⟩],
      s ∈ ([⟨1, 10⟩, ⟨2, 5⟩] : List CacheRow)) ∧
    (∀ d ∈ ([⟨1, 10⟩, ⟨2, 5⟩] : List CacheRow),
      d ∉ enforceCacheLimitSweep 1 [⟨1, 10⟩, ⟨2, 5⟩] →
      ∀ s ∈ enforceCacheLimitSweep 1 [⟨1, 10⟩, ⟨2, 5⟩], d.ts ≤ s.ts) := by
  refine ⟨(enforceCacheLimitSweep_spec (-1) [⟨1, 10⟩, ⟨2, 5⟩]).1 (by decide), ?_⟩
  exact (enforceCacheLimitSweep_spec 1 [⟨1, 10⟩, ⟨2, 5⟩]).2
    (by decide) (by decide) (by decide)

/-! ## Cache store and lookup (`StoreCache` / `LookupCache`, `src/unnamed/part_000`)

Both functions guard on `srv.db != nil`.  The database table is modelled as
an association list keyed by the cache key; a missing handle is `none`.
`json.Marshal` of `[]YouTubeTrack` cannot fail in Go (the struct holds only
strings, ints, bools and slices thereof), so serialization is modelled as a
total oracle function.  The Go `error` return becomes `Except Unit`. -/

/-- The rows of the `caches` table as `key ↦ value` pairs. -/
def CacheDb := List (List Nat × List Nat)

/-- `INSERT OR REPLACE INTO caches (key, value) VALUES (?, ?)`. -/
def dbUpsert (rows : CacheDb) (key value : List Nat) : CacheDb :=
  if (rows.map Prod.fst).contains key then
    rows.map fun kv => if kv.fst = key then (key, value) else kv
  else (key, value) :: rows

/-- `SELECT value FROM caches WHERE key = ?`, with `sql.ErrNoRows` mapped to
the miss value `nil, nil`. -/
def dbSelect (rows : CacheDb) (key : List Nat) : Option (List Nat) :=
  (rows.find? fun kv => kv.fst = key).map Prod.snd

/-- `(srv *Server) StoreCache` from `src/unnamed/part_000`: marshal the
tracks, then insert-or-replace when a database handle is configured; with no
handle the value is dropped and `nil` is returned.  The result is the new
database state. -/
def StoreCache (marshal : List (List Nat) → List Nat) (db : Option CacheDb)
    (key : List Nat) (data : List (List Nat)) : Except Unit (Option CacheDb) :=
  let value := marshal data
  match db with
  | some rows => Except.ok (some (dbUpsert rows key value))
  | none => Except.ok none

/-- `(srv *Server) LookupCache` from `src/unnamed/part_000`: with a handle,
return the stored value (or a `nil` miss when no row matches); with no
handle, always `nil, nil`. -/
def LookupCache (db : Option CacheDb) (key : List Nat) :
    Except Unit (Option (List Nat)) :=
  match db with
  | some rows => Except.ok (dbSelect rows key)
  | none => Except.ok none

/-- C7.  When caching is disabled (no database handle), for every key and
payload `LookupCache` returns a miss without error and `StoreCache` is
silently ignored: both return without error and the (absent) database state
is unchanged. -/
theorem cache_disabled_noop (marshal : List (List Nat) → List Nat)
    (key : List Nat) (data : List (List Nat)) :
    StoreCache marshal none key data = Except.ok none ∧
    LookupCache none key = Except.ok none :=
  ⟨rfl, rfl⟩

/-! ## Identity-pool acquisition (`RandomVisitor`, `src/unnamed/part_002`)

`RandomVisitor` reads `len(srv.visitors)` (the whole pool, both channels
mixed) and `srv.faultCount` under a read lock; when
`len(visitors) < MaxVisitorCount && faultCount < MaxVisitorCount*4` it
fetches a fresh visitor over the network, appends it under the write lock
and returns it; on fetch failure it increments `faultCount`.  In all
remaining paths it filters the pool by the requested channel and picks a
`rand.IntN` index, returning `nil` when the filter is empty.  The network
fetch and the random index are oracles. -/

/-- A pool entry (`YouTubeVisitorData`): the channel flag plus an identifier
standing for the opaque context document. -/
structure VisitorData where
  isYouTube : Bool
  vid : Nat
deriving DecidableEq

/-- The pool entries usable for one channel. -/
def filteredVisitors (visitors : List VisitorData) (isYouTube : Bool) :
    List VisitorData :=
  visitors.filter fun v => v.isYouTube == isYouTube

/-- The fallback path of `RandomVisitor`: select a `rand.IntN`-chosen entry
among the identities for the requested channel, or `nil` when none exist. -/
def selectRandomVisitor (visitors : List VisitorData) (isYouTube : Bool)
    (pick : Nat) : Option VisitorData :=
  match filteredVisitors visitors isYouTube with
  | [] => none
  | x :: rest => some ((x :: rest).getD (pick % (rest.length + 1)) x)

/-- `(srv *Server) RandomVisitor` from `src/unnamed/part_002` on the state
`(visitors, faultCount)`: result is the new state plus the returned entry
(`none` = Go `nil`).  `fetch` is the outcome `fetchInnertubeContext` would
produce, `pick` the random number drawn in the fallback. -/
def RandomVisitor (maxVisitorCount : Nat) (fetch : Option VisitorData)
    (pick : Nat) (visitors : List VisitorData) (faultCount : Nat)
    (isYouTube : Bool) : (List VisitorData × Nat) × Option VisitorData :=
  if visitors.length < maxVisitorCount ∧ faultCount < maxVisitorCount * 4 then
    match fetch with
    | some v => ((visitors ++ [v], faultCount), some v)
    | none =>
        ((visitors, faultCount + 1), selectRandomVisitor visitors isYouTube pick)
  else ((visitors, faultCount), selectRandomVisitor visitors isYouTube pick)

/-- C5 counterexample.  The fetch gate of `RandomVisitor` compares the
TOTAL pool size against the configured maximum, not the per-channel count
the claim describes: with a maximum of 2, a pool of two music-channel
identities, no recorded faults and a fetch that would succeed, a request for
the YouTube channel — for which the pool holds zero identities, below the
minimum, with the failure count below its threshold — performs no fetch,
admits nothing, and returns the empty result. -/
theorem randomVisitor_channel_minimum_counterexample :
    (filteredVisitors [⟨false, 0⟩, ⟨false, 1⟩] true).length = 0 ∧
    (0 : Nat) < 2 ∧ (0 : Nat) < 2 * 4 ∧
    RandomVisitor 2 (some ⟨true, 7⟩) 0 [⟨false, 0⟩, ⟨false, 1⟩] 0 true =
      (([⟨false, 0⟩, ⟨false, 1⟩], 0), none) := by
  refine ⟨rfl, by decide, by decide, ?_⟩
  rfl

/-- C5 (amended).  `RandomVisitor` attempts a synchronous fetch, admitting
the fresh identity to the pool (appended) before returning it, exactly when
the TOTAL pool size (both channels) is below the configured maximum and the
cumulative fetch-failure count is below `4 * maximum`; when that fetch
fails it increments the failure counter and falls back; in all fallback
paths it picks a random index among the existing identities of the
requested channel, every returned identity belongs to the pool and to the
requested channel, and the result is empty exactly when no identity for
that channel exists. -/
theorem randomVisitor_spec (maxVisitorCount : Nat) (fetch : Option VisitorData)
    (pick : Nat) (visitors : List VisitorData) (faultCount : Nat)
    (isYouTube : Bool) :
    (visitors.length < maxVisitorCount → faultCount < maxVisitorCount * 4 →
      (∀ v, fetch = some v →
        RandomVisitor maxVisitorCount fetch pick visitors faultCount isYouTube =
          ((visitors ++ [v], faultCount), some v)) ∧
      (fetch = none →
        RandomVisitor maxVisitorCount fetch pick visitors faultCount isYouTube =
          ((visitors, faultCount + 1),
            selectRandomVisitor visitors isYouTube pick))) ∧
    (¬ (visitors.length < maxVisitorCount ∧ faultCount < maxVisitorCount * 4) →
      RandomVisitor maxVisitorCount fetch pick visitors faultCount isYouTube =
        ((visitors, faultCount), selectRandomVisitor visitors isYouTube pick)) ∧
    (selectRandomVisitor visitors isYouTube pick = none ↔
      filteredVisitors visitors isYouTube = []) ∧
    (∀ v, selectRandomVisitor visitors isYouTube pick = some v →
      v ∈ visitors ∧ v.isYouTube = isYouTube) := by
  refine ⟨?_, ?_, ?_, ?_⟩
  · intro hlen hfault
    constructor
    · intro v hv
      unfold RandomVisitor
      rw [if_pos ⟨hlen, hfault⟩, hv]
    · intro hv
      unfold RandomVisitor
      rw [if_pos ⟨hlen, hfault⟩, hv]
  · intro hcond
    unfold RandomVisitor
    rw [if_neg hcond]
  · unfold selectRandomVisitor
    cases h : filteredVisitors visitors isYouTube with
    | nil => simp
    | cons x rest => simp
  · intro v hv
    unfold selectRandomVisitor at hv
    cases h : filteredVisitors visitors isYouTube with
    | nil =>
        rw [h] at hv
        exact absurd hv (by simp)
    | cons x rest =>
        rw [h] at hv
        have hvmem : v ∈ x :: rest := by
          have hveq := Option.some.inj hv
          have hlt : pick % (rest.length + 1) < (x :: rest).length := by
            simpa using Nat.mod_lt pick (Nat.succ_pos rest.length)
          rw [← hveq, List.getD_eq_getElem _ _ hlt]
          exact List.getElem_mem hlt
        rw [← h] at hvmem
        unfold filteredVisitors at hvmem
        have := List.mem_filter.mp hvmem
        refine ⟨this.1, by simpa using this.2⟩

/-- Witness for C5 (amended) at concrete inputs: a pool of one music entry,
maximum 2, no faults, a successful fetch for the YouTube channel. -/
theorem randomVisitor_spec_witness :
    RandomVisitor 2 (some ⟨true, 7⟩) 0 [⟨false, 0⟩] 0 true =
      (([⟨false, 0⟩, ⟨true, 7⟩], 0), some ⟨true, 7⟩) ∧
    (selectRandomVisitor [⟨false, 0⟩] true 0 = none ↔
      filteredVisitors [⟨false, 0⟩] true = []) := by
  constructor
  · exact ((randomVisitor_spec 2 (some ⟨true, 7⟩) 0 [⟨false, 0⟩] 0 true).1
      (by decide) (by decide)).1 _ rfl
  · exact (randomVisitor_spec 2 (some ⟨true, 7⟩) 0 [⟨false, 0⟩] 0 true).2.2.1

/-! ## Lock discipline (C8): `RandomVisitor`, `RotateVisitors`,
`TransportDialContext`

Each function is abstracted to the sequence of lock and network events it
performs, read off the source line by line; `netWhileHeld` replays a trace
counting the held-lock depth (the read and write sides of the identity
`RWMutex`, and the transport `Mutex`, each count as the component's one
lock) and reports whether any network call happens at positive depth. -/

/-- One event of a component trace: lock acquire, lock release, or a network
call (identity fetch, DNS lookup, connection dial). -/
inductive LockEv
  | acq
  | rel
  | net
deriving DecidableEq

/-- Does any `net` event of the trace occur while the component lock is
held (positive acquire depth)? -/
def netWhileHeld : List LockEv → Nat → Bool
  | [], _ => false
  | LockEv.acq :: es, d => netWhileHeld es (d + 1)
  | LockEv.rel :: es, d => netWhileHeld es (d - 1)
  | LockEv.net :: es, d => decide (0 < d) || netWhileHeld es d

/-- Event trace of `(srv *Server) RandomVisitor` (`src/unnamed/part_002`):
`RLock/RUnlock` around the pool snapshot; if a new identity is needed, the
network fetch happens with no lock held, then either the append under
`Lock/Unlock` (returning early) or the fault increment under `Lock/Unlock`
followed by the read-locked fallback selection; otherwise just the
read-locked fallback selection. -/
def randomVisitorTrace (needNew fetchOk : Bool) : List LockEv :=
  [LockEv.acq, LockEv.rel] ++
    (if needNew then
      LockEv.net ::
        (if fetchOk then [LockEv.acq, LockEv.rel]
        else [LockEv.acq, LockEv.rel] ++ [LockEv.acq, LockEv.rel])
    else [LockEv.acq, LockEv.rel])

/-- Event trace of one tick of `(srv *Server) RotateVisitors`
(`src/unnamed/part_002`): the expired snapshot is collected under
`RLock/RUnlock`; then for each expired entry the replacement fetch happens
outside any lock, followed (on success only) by the slot swap under
`Lock/Unlock`.  `fetchResults` lists the success flag of each replacement
fetch. -/
def rotateVisitorsTickTrace (fetchResults : List Bool) : List LockEv :=
  [LockEv.acq, LockEv.rel] ++
    fetchResults.foldr
      (fun ok acc =>
        (LockEv.net :: (if ok then [LockEv.acq, LockEv.rel] else [])) ++ acc)
      []

/-- Event trace of `(client *HttpClient) TransportDialContext`
(`src/http_client.go`): `client.mu.Lock()` with a deferred unlock guards the
whole body, inside which a stale or missing reachability record triggers the
`net.LookupIP` resolution check and every call performs
`dialer.DialContext`; the deferred `Unlock` runs only after the dial
returns. -/
def transportDialTrace (refreshNeeded : Bool) : List LockEv :=
  LockEv.acq ::
    ((if refreshNeeded then [LockEv.net] else []) ++ [LockEv.net, LockEv.rel])

/-- C8 counterexample.  The reachability-cache mutex IS held across network
calls: even on a cache hit (no resolution check) the connection dial runs at
lock depth 1, and on a refresh the DNS-style lookup does too. -/
theorem transportDial_net_under_lock_counterexample :
    netWhileHeld (transportDialTrace false) 0 = true ∧
    netWhileHeld (transportDialTrace true) 0 = true := by
  decide

/-- C8 (amended).  The identity-list lock is never held across a network
call — neither in `RandomVisitor` (fetch before the append-only critical
section) nor in any rotation tick of `RotateVisitors` (replacement fetches
strictly between the snapshot read-lock and the swap write-lock) — but
`TransportDialContext` holds the reachability-cache mutex across its
resolution check and connection dial on every call. -/
theorem netWhileHeld_rotate_aux (fetchResults : List Bool) :
    netWhileHeld
      (fetchResults.foldr
        (fun ok acc =>
          LockEv.net :: ((if ok then [LockEv.acq, LockEv.rel] else []) ++ acc))
        []) 0 = false := by
  induction fetchResults with
  | nil => rfl
  | cons ok rest ih =>
      cases ok <;> simp only [List.foldr_cons] <;> simp [netWhileHeld, ih]

theorem lock_discipline_spec :
    (∀ needNew fetchOk : Bool,
      netWhileHeld (randomVisitorTrace needNew fetchOk) 0 = false) ∧
    (∀ fetchResults : List Bool,
      netWhileHeld (rotateVisitorsTickTrace fetchResults) 0 = false) ∧
    (∀ refreshNeeded : Bool,
      netWhileHeld (transportDialTrace refreshNeeded) 0 = true) := by
  refine ⟨by decide, ?_, by decide⟩
  intro fetchResults
  unfold rotateVisitorsTickTrace
  simp only [List.cons_append, List.nil_append]
  simp [netWhileHeld, netWhileHeld_rotate_aux fetchResults]

/-! ## Upstream JSON parsing (`src/unnamed/part_006`)

JSON documents are modelled by the inductive `Json` (numbers as integers —
the fields the parsers read carry integral values).  The `gjson` accessors
used by the source are modelled on `Option Json` where `none` is a
non-existent result:

* `Result.Get(path)` → `jget` (object-key lookup, numeric index on arrays);
* `Result.Exists()` → `Option.isSome`;
* `Result.IsArray()` → `jisArray`;
* `Result.Array()` → `jarray` (missing/null → `[]`, array → its elements,
  any other result — scalar or object — → the one-element list holding it);
* `Result.String()` → `jstring` (string/number/bool rendered, missing and
  null → `""`, and a compound (array/object) result rendered as its JSON
  text via `jsonRaw`; `gjson` returns the raw slice of the source document,
  which for the formatting-free `Json` values of this model is their
  canonical compact serialization);
* `Result.Int()` → `jint`.
-/

/-- A JSON value; numbers are modelled as integers. -/
inductive Json
  | null
  | bool (b : Bool)
  | num (n : Int)
  | str (s : List Nat)
  | arr (xs : List Json)
  | obj (fields : List (List Nat × Json))

/-- Digits of a decimal string, `none` when not a nonempty digit string. -/
def parseNatDigits (s : List Nat) : Option Nat :=
  if s ≠ [] && s.all (fun c => 48 ≤ c && c ≤ 57) then
    some (s.foldl (fun a c => a * 10 + (c - 48)) 0)
  else none

/-- One path component of a `gjson` lookup: key access on an object
(first matching key), numeric index on an array. -/
def jgetStep (j : Json) (comp : List Nat) : Option Json :=
  match j with
  | Json.obj fields => (fields.find? fun kv => kv.fst == comp).map Prod.snd
  | Json.arr xs =>
      match parseNatDigits comp with
      | some n => xs[n]?
      | none => none
  | _ => none

/-- `gjson` dotted-path lookup (`Result.Get`), the path pre-split on dots. -/
def jget (j : Json) (path : List (List Nat)) : Option Json :=
  path.foldl (fun acc comp => acc.bind fun jj => jgetStep jj comp) (some j)

/-- `Result.IsArray()`. -/
def jisArray (o : Option Json) : Bool :=
  match o with
  | some (Json.arr _) => true
  | _ => false

/-- `Result.Array()`: missing and null results give the empty slice; an
array gives its elements; any other result (scalar or object) gives the
one-element slice holding it. -/
def jarray (o : Option Json) : List Json :=
  match o with
  | none => []
  | some Json.null => []
  | some (Json.arr xs) => xs
  | some j => [j]

/-- Decimal rendering of an integer (for `Result.String()` on a number). -/
def intToString (i : Int) : List Nat :=
  if i < 0 then 45 :: (Nat.toDigits 10 i.natAbs).map Char.toNat
  else (Nat.toDigits 10 i.toNat).map Char.toNat

/-- Lower-case hexadecimal digit (for JSON string escapes). -/
def hexDigitCharLower (n : Nat) : Nat :=
  if n < 10 then 48 + n else 87 + n

/-- JSON escape of one code point inside a string literal: quote and
backslash are backslash-escaped, control characters become `\u00xx`,
everything else stands for itself. -/
def jsonEscapeChar (c : Nat) : List Nat :=
  if c == 34 then [92, 34]
  else if c == 92 then [92, 92]
  else if c < 32 then
    [92, 117, 48, 48, hexDigitCharLower (c / 16 % 16), hexDigitCharLower (c % 16)]
  else [c]

/-- A JSON string literal: the escaped code points between quotes. -/
def jsonStrLit (s : List Nat) : List Nat :=
  [34] ++ s.foldr (fun c acc => jsonEscapeChar c ++ acc) [] ++ [34]

mutual

/-- Canonical compact JSON text of a value (the model's counterpart of the
raw document slice `gjson` keeps for compound results). -/
def jsonRaw : Json → List Nat
  | Json.null => goStr (r"null")
  | Json.bool true => goStr (r"true")
  | Json.bool false => goStr (r"false")
  | Json.num n => intToString n
  | Json.str s => jsonStrLit s
  | Json.arr xs => [91] ++ jsonRawItems xs ++ [93]
  | Json.obj fields => [123] ++ jsonRawFields fields ++ [125]

/-- Comma-separated serialization of array elements. -/
def jsonRawItems : List Json → List Nat
  | [] => []
  | [x] => jsonRaw x
  | x :: y :: rest => jsonRaw x ++ [44] ++ jsonRawItems (y :: rest)

/-- Comma-separated serialization of object members. -/
def jsonRawFields : List (List Nat × Json) → List Nat
  | [] => []
  | [(k, v)] => jsonStrLit k ++ [58] ++ jsonRaw v
  | (k, v) :: kv :: rest =>
      jsonStrLit k ++ [58] ++ jsonRaw v ++ [44] ++ jsonRawFields (kv :: rest)

end

/-- `Result.String()`: strings verbatim, numbers and booleans rendered,
missing and null `""`, compound results as their JSON text (see the module
note). -/
def jstring (o : Option Json) : List Nat :=
  match o with
  | none => []
  | some Json.null => []
  | some (Json.str s) => s
  | some (Json.num n) => intToString n
  | some (Json.bool true) => goStr (r"true")
  | some (Json.bool false) => goStr (r"false")
  | some (Json.arr xs) => jsonRaw (Json.arr xs)
  | some (Json.obj fields) => jsonRaw (Json.obj fields)

/-- `Result.Int()`: numbers directly, numeric strings parsed, `true` is 1,
everything else 0. -/
def jint (o : Option Json) : Int :=
  match o with
  | some (Json.num n) => n
  | some (Json.str s) =>
      (match parseNatDigits s with
      | some n => (n : Int)
      | none => 0)
  | some (Json.bool true) => 1
  | _ => 0

/-- `Thumbnail` from `src/unnamed/part_006`. -/
structure Thumbnail where
  url : List Nat
  width : Int
  height : Int
deriving DecidableEq

/-- `YouTubeTrack` from `src/unnamed/part_006` (`Length` is the duration in
milliseconds). -/
structure YouTubeTrack where
  title : List Nat
  author : List Nat
  identifier : List Nat
  images : List Thumbnail
  length : Int
  uri : List Nat
  trackType : List Nat
  views : List Nat
  channelId : List Nat
  isLive : Bool
deriving DecidableEq

/-- One thumbnail entry (`url`/`width`/`height` via gjson). -/
def parseThumbnail (t : Json) : Thumbnail :=
  { url := jstring (jget t [goStr (r"url")])
    width := jint (jget t [goStr (r"width")])
    height := jint (jget t [goStr (r"height")]) }

/-- Go `strings.Split(s, sep)` for a one-character separator; the result is
never empty (`Split("", sep) = [""]`). -/
def goSplit (sep : Nat) : List Nat → List (List Nat)
  | [] => [[]]
  | c :: rest =>
      match goSplit sep rest with
      | [] => [[]]
      | h :: t => if c == sep then [] :: h :: t else (c :: h) :: t

/-- Go `strconv.Atoi` with the error discarded (as at every call site in
`parseDurationText`): optional sign followed by digits, anything else 0.
The Go `int` range clamp on overflow is not modelled (integers are
unbounded here). -/
def goAtoi (s : List Nat) : Int :=
  match s with
  | 43 :: rest =>
      (match parseNatDigits rest with
      | some n => (n : Int)
      | none => 0)
  | 45 :: rest =>
      (match parseNatDigits rest with
      | some n => -(n : Int)
      | none => 0)
  | _ =>
      (match parseNatDigits s with
      | some n => (n : Int)
      | none => 0)

/-- `parseDurationText` from `src/unnamed/part_006`: split on `:`, read
hours/minutes/seconds depending on the number of parts, return total
milliseconds. -/
def parseDurationText (durationStr : List Nat) : Int :=
  let parts := goSplit 58 durationStr
  let hms : Int × Int × Int :=
    if parts.length = 3 then
      (goAtoi (parts.getD 0 []), goAtoi (parts.getD 1 []), goAtoi (parts.getD 2 []))
    else if parts.length = 2 then
      (0, goAtoi (parts.getD 0 []), goAtoi (parts.getD 1 []))
    else if parts.length = 1 then
      (0, 0, goAtoi (parts.getD 0 []))
    else (0, 0, 0)
  (hms.1 * 3600 + hms.2.1 * 60 + hms.2.2) * 1000

/-- `startsWith sub s`: `sub` sits at the front of `s`. -/
def goStartsWith : List Nat → List Nat → Bool
  | [], _ => true
  | _ :: _, [] => false
  | a :: as, b :: bs => a == b && goStartsWith as bs

/-- Go `strings.Contains(s, sub)`. -/
def goContains (s sub : List Nat) : Bool :=
  match s with
  | [] => goStartsWith sub []
  | c :: rest => goStartsWith sub (c :: rest) || goContains rest sub

/-- Outcome of parsing one record: a track, a (skipped) per-record error,
or a runtime panic (index out of range) that aborts the whole parse. -/
inductive TrackResult
  | ok (t : YouTubeTrack)
  | err
  | panics
deriving DecidableEq

/-- Outcome of a whole search-results parse. -/
inductive ParseOutcome
  | ok (tracks : List YouTubeTrack)
  | err
  | panics
deriving DecidableEq

/-- The author-accumulation loop of `parseYouTubeMusicTrack`: concatenate
run texts, stopping at a run whose trimmed text is the bullet `•`
(U+2022). -/
def musicAuthorText : List Json → List Nat
  | [] => []
  | r :: rest =>
      let text := jstring (jget r [goStr (r"text")])
      if goTrimSpace text == [8226] then []
      else text ++ musicAuthorText rest

/-- Inner loop of the channel-id search: scan the `text.runs` of one
`menuNavigationItemRenderer`; on a run saying `go to artist` (after trim and
lower-case) take `navigationEndpoint.browseEndpoint.browseId` when it exists
and is nonempty (this breaks out of both loops), otherwise keep scanning. -/
def channelIdFromRuns (nav : Json) : List Json → Option (List Nat)
  | [] => none
  | run :: rest =>
      let text := jstring (jget run [goStr (r"text")])
      if goToLower (goTrimSpace text) == goStr (r"go to artist") then
        match jget nav [goStr (r"navigationEndpoint"), goStr (r"browseEndpoint"),
            goStr (r"browseId")] with
        | some cid =>
            if jstring (some cid) ≠ [] then some (jstring (some cid))
            else channelIdFromRuns nav rest
        | none => channelIdFromRuns nav rest
      else channelIdFromRuns nav rest

/-- Outer loop of the channel-id search over `menu.menuRenderer.items`. -/
def channelIdFromMenu : List Json → List Nat
  | [] => []
  | mi :: rest =>
      match jget mi [goStr (r"menuNavigationItemRenderer")] with
      | none => channelIdFromMenu rest
      | some nav =>
          let runs := jget nav [goStr (r"text"), goStr (r"runs")]
          if jisArray runs then
            match channelIdFromRuns nav (jarray runs) with
            | some cid => cid
            | none => channelIdFromMenu rest
          else channelIdFromMenu rest

/-- `parseYouTubeMusicTrack` from `src/unnamed/part_006`.  Note the source
line `authorAndLengthRuns[len(authorAndLengthRuns)-1]`: when `Array()` of
the second column's `text.runs` node is the empty slice (the node missing,
null, or an empty array), this indexes at `-1` and panics at runtime —
modelled by `TrackResult.panics`. -/
def parseYouTubeMusicTrack (item : Json) : TrackResult :=
  match jget item [goStr (r"musicResponsiveListItemRenderer")] with
  | none => TrackResult.err
  | some itemRenderer =>
      let thumbnailArray := jget itemRenderer [goStr (r"thumbnail"),
        goStr (r"musicThumbnailRenderer"), goStr (r"thumbnail"), goStr (r"thumbnails")]
      let thumbnails :=
        if thumbnailArray.isSome && jisArray thumbnailArray then
          (jarray thumbnailArray).map parseThumbnail
        else []
      let title := jstring (jget itemRenderer [goStr (r"flexColumns"), goStr (r"0"),
        goStr (r"musicResponsiveListItemFlexColumnRenderer"), goStr (r"text"),
        goStr (r"runs"), goStr (r"0"), goStr (r"text")])
      let flexColumns := jarray (jget itemRenderer [goStr (r"flexColumns")])
      if flexColumns.length < 3 then TrackResult.err
      else
        let authorAndLengthRuns := jarray (jget (flexColumns.getD 1 Json.null)
          [goStr (r"musicResponsiveListItemFlexColumnRenderer"), goStr (r"text"),
            goStr (r"runs")])
        match authorAndLengthRuns.getLast? with
        | none => TrackResult.panics
        | some lastRun =>
            let author := musicAuthorText authorAndLengthRuns
            let length := jstring (jget lastRun [goStr (r"text")])
            let views := jstring (jget (flexColumns.getD 2 Json.null)
              [goStr (r"musicResponsiveListItemFlexColumnRenderer"), goStr (r"text"),
                goStr (r"runs"), goStr (r"0"), goStr (r"text")])
            let videoId := jstring (jget itemRenderer [goStr (r"playlistItemData"),
              goStr (r"videoId")])
            let uri := goStr (r"https://music.youtube.com/watch?v=") ++ videoId
            let channelId := channelIdFromMenu (jarray (jget itemRenderer
              [goStr (r"menu"), goStr (r"menuRenderer"), goStr (r"items")]))
            let lengthInt := parseDurationText length
            if lengthInt = 0 then TrackResult.err
            else
              let itemType :=
                if thumbnails ≠ [] &&
                    goContains ((thumbnails.getD 0 ⟨[], 0, 0⟩).url)
                      (goStr (r"i.ytimg.com/vi/")) then
                  goStr (r"video")
                else goStr (r"song")
              TrackResult.ok
                { title := title
                  author := author
                  identifier := videoId
                  images := thumbnails
                  length := lengthInt
                  uri := uri
                  trackType := itemType
                  views := views
                  channelId := channelId
                  isLive := false }

/-- `parseYouTubeTrack` from `src/unnamed/part_006`. -/
def parseYouTubeTrack (item : Json) : TrackResult :=
  match jget item [goStr (r"videoRenderer")] with
  | none => TrackResult.err
  | some itemRenderer =>
      let thumbnailArray := jget itemRenderer [goStr (r"thumbnail"), goStr (r"thumbnails")]
      let thumbnails :=
        if thumbnailArray.isSome && jisArray thumbnailArray then
          (jarray thumbnailArray).map parseThumbnail
        else []
      let title := jstring (jget itemRenderer [goStr (r"title"), goStr (r"runs"),
        goStr (r"0"), goStr (r"text")])
      let author := jstring (jget itemRenderer [goStr (r"ownerText"), goStr (r"runs"),
        goStr (r"0"), goStr (r"text")])
      let length := jstring (jget itemRenderer [goStr (r"lengthText"),
        goStr (r"simpleText")])
      let videoId := jstring (jget itemRenderer [goStr (r"videoId")])
      let uri := goStr (r"https://www.youtube.com/watch?v=") ++ videoId
      let views := jstring (jget itemRenderer [goStr (r"viewCountText"),
        goStr (r"simpleText")])
      let channelId := jstring (jget itemRenderer [goStr (r"ownerText"), goStr (r"runs"),
        goStr (r"0"), goStr (r"navigationEndpoint"), goStr (r"browseEndpoint"),
        goStr (r"browseId")])
      let lengthInt := parseDurationText length
      if lengthInt = 0 then TrackResult.err
      else
        TrackResult.ok
          { title := title
            author := author
            identifier := videoId
            images := thumbnails
            length := lengthInt
            uri := uri
            trackType := goStr (r"video")
            views := views
            channelId := channelId
            isLive := false }

/-- The per-record loop of both search-results parsers: skip records whose
parse errors, collect the rest in order, abort on a panic. -/
def collectTracks (f : Json → TrackResult) : List Json → ParseOutcome
  | [] => ParseOutcome.ok []
  | item :: rest =>
      match f item with
      | TrackResult.panics => ParseOutcome.panics
      | TrackResult.err => collectTracks f rest
      | TrackResult.ok t =>
          match collectTracks f rest with
          | ParseOutcome.ok ts => ParseOutcome.ok (t :: ts)
          | r => r

/-- The gjson path of the YouTube Music results array. -/
def ytMusicContentsPath : List (List Nat) :=
  [goStr (r"contents"), goStr (r"tabbedSearchResultsRenderer"), goStr (r"tabs"),
    goStr (r"0"), goStr (r"tabRenderer"), goStr (r"content"),
    goStr (r"sectionListRenderer"), goStr (r"contents"), goStr (r"0"),
    goStr (r"musicShelfRenderer"), goStr (r"contents")]

/-- The gjson path of the YouTube results array. -/
def ytSearchContentsPath : List (List Nat) :=
  [goStr (r"contents"), goStr (r"twoColumnSearchResultsRenderer"),
    goStr (r"primaryContents"), goStr (r"sectionListRenderer"), goStr (r"contents"),
    goStr (r"0"), goStr (r"itemSectionRenderer"), goStr (r"contents")]

/-- `parseYouTubeMusicSearchResults` from `src/unnamed/part_006`: a missing
or non-array envelope node is a hard error, otherwise the per-record loop
runs. -/
def parseYouTubeMusicSearchResults (data : Json) : ParseOutcome :=
  match jget data ytMusicContentsPath with
  | none => ParseOutcome.err
  | some (Json.arr items) => collectTracks parseYouTubeMusicTrack items
  | some _ => ParseOutcome.err

/-- `parseYouTubeSearchResults` from `src/unnamed/part_006`. -/
def parseYouTubeSearchResults (data : Json) : ParseOutcome :=
  match jget data ytSearchContentsPath with
  | none => ParseOutcome.err
  | some (Json.arr items) => collectTracks parseYouTubeTrack items
  | some _ => ParseOutcome.err

/-- The track of a per-record outcome, when there is one. -/
def trackOption : TrackResult → Option YouTubeTrack
  | TrackResult.ok t => some t
  | _ => none

/-! ### Parser lemmas -/

theorem parseYouTubeTrack_ne_panics (item : Json) :
    parseYouTubeTrack item ≠ TrackResult.panics := by
  unfold parseYouTubeTrack
  cases jget item [goStr (r"videoRenderer")] with
  | none => simp
  | some itemRenderer =>
      dsimp only
      split <;> simp

theorem parseYouTubeTrack_ok_length (item : Json) (t : YouTubeTrack)
    (h : parseYouTubeTrack item = TrackResult.ok t) : t.length ≠ 0 := by
  unfold parseYouTubeTrack at h
  cases hj : jget item [goStr (r"videoRenderer")] with
  | none =>
      rw [hj] at h
      exact absurd h (by simp)
  | some itemRenderer =>
      rw [hj] at h
      dsimp only at h
      split at h
      · exact absurd h (by simp)
      · next hcond =>
          cases h
          simpa using hcond

theorem parseYouTubeMusicTrack_ok_length (item : Json) (t : YouTubeTrack)
    (h : parseYouTubeMusicTrack item = TrackResult.ok t) : t.length ≠ 0 := by
  unfold parseYouTubeMusicTrack at h
  cases hj : jget item [goStr (r"musicResponsiveListItemRenderer")] with
  | none =>
      rw [hj] at h
      exact absurd h (by simp)
  | some itemRenderer =>
      rw [hj] at h
      dsimp only at h
      split at h
      · exact absurd h (by simp)
      · rename_i hflex
        split at h
        · exact absurd h (by simp)
        · rename_i lastRun hlast
          split at h
          · exact absurd h (by simp)
          · next hcond =>
              cases h
              simpa using hcond

theorem collectTracks_ok_of_no_panic (f : Json → TrackResult) (items : List Json)
    (h : ∀ it ∈ items, f it ≠ TrackResult.panics) :
    collectTracks f items =
      ParseOutcome.ok (items.filterMap fun it => trackOption (f it)) := by
  induction items with
  | nil => rfl
  | cons item rest ih =>
      have hrest := ih fun it hm => h it (List.mem_cons_of_mem _ hm)
      have hitem := h item (List.mem_cons_self _ _)
      unfold collectTracks
      cases hf : f item with
      | panics => exact absurd hf hitem
      | err =>
          rw [hrest]
          simp [List.filterMap_cons, trackOption, hf]
      | ok t =>
          rw [hrest]
          simp [List.filterMap_cons, trackOption, hf]

theorem collectTracks_ok_mem (f : Json → TrackResult) (items : List Json)
    (ts : List YouTubeTrack) (h : collectTracks f items = ParseOutcome.ok ts) :
    ∀ t ∈ ts, ∃ it ∈ items, f it = TrackResult.ok t := by
  induction items generalizing ts with
  | nil =>
      unfold collectTracks at h
      cases h
      simp
  | cons item rest ih =>
      unfold collectTracks at h
      cases hf : f item with
      | panics =>
          rw [hf] at h
          exact absurd h (by simp)
      | err =>
          rw [hf] at h
          intro t ht
          obtain ⟨it, hit, hok⟩ := ih ts h t ht
          exact ⟨it, List.mem_cons_of_mem _ hit, hok⟩
      | ok t0 =>
          rw [hf] at h
          cases hr : collectTracks f rest with
          | ok ts0 =>
              rw [hr] at h
              cases h
              intro t ht
              rcases List.mem_cons.mp ht with h1 | h2
              · subst h1
                exact ⟨item, List.mem_cons_self _ _, hf⟩
              · obtain ⟨it, hit, hok⟩ := ih ts0 hr t h2
                exact ⟨it, List.mem_cons_of_mem _ hit, hok⟩
          | err =>
              rw [hr] at h
              exact absurd h (by simp)
          | panics =>
              rw [hr] at h
              exact absurd h (by simp)

/-- C9.  Every track in a successfully returned search-result list — from
either parser — has a non-zero duration (`Length`, in milliseconds): a
record whose duration text parses to 0 is rejected as malformed and never
reaches the output. -/
theorem parsers_never_return_zero_duration (data : Json)
    (tracks : List YouTubeTrack)
    (h : parseYouTubeSearchResults data = ParseOutcome.ok tracks ∨
      parseYouTubeMusicSearchResults data = ParseOutcome.ok tracks) :
    ∀ t ∈ tracks, t.length ≠ 0 := by
  intro t ht
  rcases h with h | h
  · unfold parseYouTubeSearchResults at h
    cases hj : jget data ytSearchContentsPath with
    | none =>
        rw [hj] at h
        exact absurd h (by simp)
    | some j =>
        rw [hj] at h
        cases j with
        | arr items =>
            obtain ⟨it, _, hok⟩ := collectTracks_ok_mem _ items tracks h t ht
            exact parseYouTubeTrack_ok_length it t hok
        | null => exact absurd h (by simp)
        | bool b => exact absurd h (by simp)
        | num n => exact absurd h (by simp)
        | str s => exact absurd h (by simp)
        | obj fields => exact absurd h (by simp)
  · unfold parseYouTubeMusicSearchResults at h
    cases hj : jget data ytMusicContentsPath with
    | none =>
        rw [hj] at h
        exact absurd h (by simp)
    | some j =>
        rw [hj] at h
        cases j with
        | arr items =>
            obtain ⟨it, _, hok⟩ := collectTracks_ok_mem _ items tracks h t ht
            exact parseYouTubeMusicTrack_ok_length it t hok
        | null => exact absurd h (by simp)
        | bool b => exact absurd h (by simp)
        | num n => exact absurd h (by simp)
        | str s => exact absurd h (by simp)
        | obj fields => exact absurd h (by simp)

/-! ### Concrete envelopes for C4 and the witnesses -/

/-- A `{"text": s}` run object. -/
def jsonTextRun (s : List Nat) : Json :=
  Json.obj [(goStr (r"text"), Json.str s)]

/-- One music flex column holding the given runs. -/
def musicFlexColumn (runs : List Json) : Json :=
  Json.obj [(goStr (r"musicResponsiveListItemFlexColumnRenderer"),
    Json.obj [(goStr (r"text"), Json.obj [(goStr (r"runs"), Json.arr runs)])])]

/-- A well-formed music record with the given video id. -/
def musicGoodRecord (vid : List Nat) : Json :=
  Json.obj [(goStr (r"musicResponsiveListItemRenderer"), Json.obj [
    (goStr (r"flexColumns"), Json.arr [
      musicFlexColumn [jsonTextRun (goStr (r"Song"))],
      musicFlexColumn [jsonTextRun (goStr (r"Artist")), jsonTextRun (goStr (r"3:21"))],
      musicFlexColumn [jsonTextRun (goStr (r"1M views"))]]),
    (goStr (r"playlistItemData"),
      Json.obj [(goStr (r"videoId"), Json.str vid)])])]

/-- A malformed music record with three flex columns whose second column has
an EMPTY runs array (`Array()` of it is the empty slice):
`authorAndLengthRuns[len-1]` indexes at `-1`. -/
def musicPanicRecord : Json :=
  Json.obj [(goStr (r"musicResponsiveListItemRenderer"), Json.obj [
    (goStr (r"flexColumns"), Json.arr
      [musicFlexColumn [], musicFlexColumn [], musicFlexColumn []])])]

/-- A well-formed plain-YouTube record with the given video id. -/
def ytGoodRecord (vid : List Nat) : Json :=
  Json.obj [(goStr (r"videoRenderer"), Json.obj [
    (goStr (r"videoId"), Json.str vid),
    (goStr (r"lengthText"),
      Json.obj [(goStr (r"simpleText"), Json.str (goStr (r"3:21")))])])]

/-- A YouTube Music response envelope holding the given result records. -/
def mkMusicEnvelope (items : List Json) : Json :=
  Json.obj [(goStr (r"contents"), Json.obj [(goStr (r"tabbedSearchResultsRenderer"),
    Json.obj [(goStr (r"tabs"), Json.arr [Json.obj [(goStr (r"tabRenderer"),
      Json.obj [(goStr (r"content"), Json.obj [(goStr (r"sectionListRenderer"),
        Json.obj [(goStr (r"contents"), Json.arr [Json.obj [(goStr (r"musicShelfRenderer"),
          Json.obj [(goStr (r"contents"), Json.arr items)])]])])])])]])])])]

/-- A plain-YouTube response envelope holding the given result records. -/
def mkYtEnvelope (items : List Json) : Json :=
  Json.obj [(goStr (r"contents"), Json.obj [(goStr (r"twoColumnSearchResultsRenderer"),
    Json.obj [(goStr (r"primaryContents"), Json.obj [(goStr (r"sectionListRenderer"),
      Json.obj [(goStr (r"contents"), Json.arr [Json.obj [(goStr (r"itemSectionRenderer"),
        Json.obj [(goStr (r"contents"), Json.arr items)])]])])])])])]

/-- 5 well-formed and 2 malformed plain-YouTube records. -/
def ytDemoItems : List Json :=
  [ytGoodRecord (goStr (r"aaaaaaaaaaa")), Json.obj [],
    ytGoodRecord (goStr (r"bbbbbbbbbbb")), ytGoodRecord (goStr (r"ccccccccccc")),
    Json.obj [], ytGoodRecord (goStr (r"ddddddddddd")),
    ytGoodRecord (goStr (r"eeeeeeeeeee"))]

/-- 5 well-formed and 2 malformed (error-kind) music records. -/
def musicDemoItems : List Json :=
  [musicGoodRecord (goStr (r"aaaaaaaaaaa")), Json.obj [],
    musicGoodRecord (goStr (r"bbbbbbbbbbb")), musicGoodRecord (goStr (r"ccccccccccc")),
    Json.obj [], musicGoodRecord (goStr (r"ddddddddddd")),
    musicGoodRecord (goStr (r"eeeeeeeeeee"))]

/-- C4 counterexample.  An envelope whose expected contents path exists and
is an array, holding one record that is malformed in a way the record
parser does not catch with an error: the whole music parse panics (aborting
the request) instead of returning the well-formed records with the
malformed one skipped. -/
theorem parse_partial_tolerance_counterexample :
    jget (mkMusicEnvelope [musicPanicRecord]) ytMusicContentsPath =
      some (Json.arr [musicPanicRecord]) ∧
    parseYouTubeMusicTrack musicPanicRecord = TrackResult.panics ∧
    parseYouTubeMusicSearchResults (mkMusicEnvelope [musicPanicRecord]) =
      ParseOutcome.panics := by
  refine ⟨rfl, rfl, rfl⟩

/-- C4 (amended).  For every response body whose envelope has the expected
shape (contents path exists and is an array), the plain-YouTube parser
returns, with no error, exactly the tracks of the individually well-formed
records in their original order, silently skipping every malformed record;
the music parser does the same provided no record triggers the
index-out-of-range panic — which happens exactly when a record has three or
more flex columns but the second column's `text.runs` node is missing, null
or an empty array, so that `Array()` is empty (such a record aborts the
whole parse instead of being skipped). -/
theorem parse_partial_tolerance_spec :
    (∀ (data : Json) (items : List Json),
      jget data ytSearchContentsPath = some (Json.arr items) →
      parseYouTubeSearchResults data =
        ParseOutcome.ok (items.filterMap fun it => trackOption (parseYouTubeTrack it))) ∧
    (∀ (data : Json) (items : List Json),
      jget data ytMusicContentsPath = some (Json.arr items) →
      (∀ it ∈ items, parseYouTubeMusicTrack it ≠ TrackResult.panics) →
      parseYouTubeMusicSearchResults data =
        ParseOutcome.ok
          (items.filterMap fun it => trackOption (parseYouTubeMusicTrack it))) := by
  constructor
  · intro data items h
    unfold parseYouTubeSearchResults
    rw [h]
    exact collectTracks_ok_of_no_panic _ items fun it _ => parseYouTubeTrack_ne_panics it
  · intro data items h hnp
    unfold parseYouTubeMusicSearchResults
    rw [h]
    exact collectTracks_ok_of_no_panic _ items hnp

/-- Witness for C4 (amended) at concrete envelopes: 5 well-formed plus 2
malformed records yield exactly 5 tracks and no error, on both channels. -/
theorem parse_partial_tolerance_spec_witness :
    parseYouTubeSearchResults (mkYtEnvelope ytDemoItems) =
      ParseOutcome.ok
        (ytDemoItems.filterMap fun it => trackOption (parseYouTubeTrack it)) ∧
    (ytDemoItems.filterMap fun it => trackOption (parseYouTubeTrack it)).length = 5 ∧
    parseYouTubeMusicSearchResults (mkMusicEnvelope musicDemoItems) =
      ParseOutcome.ok
        (musicDemoItems.filterMap fun it => trackOption (parseYouTubeMusicTrack it)) ∧
    (musicDemoItems.filterMap fun it =>
      trackOption (parseYouTubeMusicTrack it)).length = 5 := by
  refine ⟨parse_partial_tolerance_spec.1 (mkYtEnvelope ytDemoItems) ytDemoItems rfl,
    by decide,
    parse_partial_tolerance_spec.2 (mkMusicEnvelope musicDemoItems) musicDemoItems rfl
      (by decide),
    by decide⟩

/-- The first track the demo envelope parses to. -/
def demoParsedTrack : YouTubeTrack :=
  (ytDemoItems.filterMap fun it => trackOption (parseYouTubeTrack it)).getD 0
    ⟨[], [], [], [], 0, [], [], [], [], false⟩

/-- Witness for C9 at a concrete envelope and track: the first returned
track of the demo parse has non-zero duration. -/
theorem parsers_never_return_zero_duration_witness :
    demoParsedTrack ∈ (ytDemoItems.filterMap fun it => trackOption (parseYouTubeTrack it)) ∧
    demoParsedTrack.length ≠ 0 :=
  ⟨by decide,
    parsers_never_return_zero_duration (mkYtEnvelope ytDemoItems)
      (ytDemoItems.filterMap fun it => trackOption (parseYouTubeTrack it))
      (Or.inl (by rfl)) demoParsedTrack (by decide)⟩

/-! ## Request classification (`MakeSearchHandler`, `src/unnamed/part_008`)

The handler body first rejects an all-white-space query, then applies the
classification rules in source order: the ISRC rewrite
(`isrcPattern` = `^[A-Z]{2}[A-Z0-9]{3}[0-9]{2}[0-9]{5}$`, or the lower-cased
`isrc:` marker, which strips the marker, trims, and forces the music
channel), then the direct-video-id check
(`DirectVideoIDPattern` = `^[a-zA-Z0-9_-]{11}$`) which routes to
`LoadVideoMetadata` and, on success (`err == nil` and a nonempty
`Identifier`), responds with the one-element array `[]YouTubeTrack{track}`.
`LoadVideoMetadata` itself is a network call and enters the model as its
outcome (`Except`). -/

/-- A character of the video-id class `[a-zA-Z0-9_-]`. -/
def isIdChar (c : Nat) : Bool :=
  (97 ≤ c && c ≤ 122) || (65 ≤ c && c ≤ 90) || (48 ≤ c && c ≤ 57) || c == 95 || c == 45

/-- `DirectVideoIDPattern.MatchString`: exactly 11 id-class characters. -/
def directVideoIdMatch (s : List Nat) : Bool :=
  s.length == 11 && s.all isIdChar

/-- `[A-Z]`. -/
def isUpperCp (c : Nat) : Bool := 65 ≤ c && c ≤ 90

/-- `[0-9]`. -/
def isDigitCp (c : Nat) : Bool := 48 ≤ c && c ≤ 57

/-- `isrcPattern.MatchString`: `^[A-Z]{2}[A-Z0-9]{3}[0-9]{2}[0-9]{5}$`
(12 characters in total). -/
def isrcMatch (s : List Nat) : Bool :=
  s.length == 12 && (s.take 2).all isUpperCp &&
    ((s.drop 2).take 3).all (fun c => isUpperCp c || isDigitCp c) &&
    (s.drop 5).all isDigitCp

/-- `strings.HasPrefix(strings.ToLower(query), "isrc:")`. -/
def queryHasIsrcMarker (s : List Nat) : Bool :=
  goStartsWith (goStr (r"isrc:")) (goToLower s)

/-- Where `MakeSearchHandler` sends a request. -/
inductive SearchRoute
  | badRequest
  | direct (videoId : List Nat)
  | search (channel : SearchType) (query : List Nat)
deriving DecidableEq

/-- The classification logic of the handler returned by
`(srv *Server) MakeSearchHandler` (`src/unnamed/part_008`), for either
channel endpoint. -/
def classifySearchQuery (searchType : SearchType) (query : List Nat) : SearchRoute :=
  if goTrimSpace query = [] then SearchRoute.badRequest
  else
    let isrcHit := isrcMatch query || queryHasIsrcMarker query
    let query2 :=
      if isrcHit then
        (if queryHasIsrcMarker query then goTrimSpace (query.drop 5) else query)
      else query
    let searchType2 := if isrcHit then SearchType.youtubeMusic else searchType
    if directVideoIdMatch query2 then SearchRoute.direct query2
    else SearchRoute.search searchType2 query2

/-- The response step of the direct path: a load error or an empty
`Identifier` is a server error, otherwise the single-element array
`[]YouTubeTrack{track}` is returned. -/
def directLookupResponse (loadResult : Except Unit YouTubeTrack) :
    Except Unit (List YouTubeTrack) :=
  match loadResult with
  | Except.error _ => Except.error ()
  | Except.ok t => if t.identifier = [] then Except.error () else Except.ok [t]

/-! ### Classification lemmas -/

theorem isIdChar_not_space (c : Nat) (h : isIdChar c = true) : isGoSpace c = false := by
  simp only [isIdChar, Bool.or_eq_true, Bool.and_eq_true, decide_eq_true_eq,
    beq_iff_eq] at h
  simp only [isGoSpace, Bool.or_eq_false_iff, beq_eq_false_iff_ne, ne_eq]
  omega

theorem goTrimSpace_of_no_space (s : List Nat) (h : ∀ c ∈ s, isGoSpace c = false) :
    goTrimSpace s = s := by
  unfold goTrimSpace
  have h1 : List.dropWhile isGoSpace s = s := by
    rw [List.dropWhile_eq_self_iff]
    intro hl
    have := h _ (List.getElem_mem hl)
    simp [this]
  rw [h1, List.rdropWhile_eq_self_iff]
  intro hl
  simp [h _ (List.getLast_mem hl)]

theorem goStartsWith_getElem? (sub : List Nat) :
    ∀ (s : List Nat), goStartsWith sub s = true →
      ∀ i, i < sub.length → s[i]? = sub[i]? := by
  induction sub with
  | nil =>
      intro s _ i hi
      exact absurd hi (by simp)
  | cons a as ih =>
      intro s h i hi
      cases s with
      | nil => exact absurd h (by simp [goStartsWith])
      | cons b bs =>
          simp only [goStartsWith, Bool.and_eq_true, beq_iff_eq] at h
          cases i with
          | zero => simp [h.1]
          | succ j =>
              simp only [List.getElem?_cons_succ]
              exact ih bs h.2 j (by simpa using hi)

theorem isIdChar_toLower_ne_colon (c : Nat) (h : isIdChar c = true) :
    goToLowerChar c ≠ 58 := by
  simp only [isIdChar, Bool.or_eq_true, Bool.and_eq_true, decide_eq_true_eq,
    beq_iff_eq] at h
  unfold goToLowerChar
  split
  · omega
  · omega

/-- C6.  Direct-identifier shortcut.  A query that is exactly 11 characters
of the opaque-identifier class `[a-zA-Z0-9_-]` is never caught by the ISRC
rules, bypasses the search path entirely on BOTH channel endpoints, and is
routed to the direct metadata-fetch path with the query itself as the video
id; when that fetch succeeds (with a nonempty identifier) the response is
the single-element array holding the fetched track. -/
theorem direct_video_id_shortcut (searchType : SearchType) (q : List Nat)
    (h11 : q.length = 11) (hcls : q.all isIdChar = true) :
    classifySearchQuery searchType q = SearchRoute.direct q ∧
    ∀ t : YouTubeTrack, t.identifier ≠ [] →
      directLookupResponse (Except.ok t) = Except.ok [t] ∧
        ([t] : List YouTubeTrack).length = 1 := by
  have hall := List.all_eq_true.mp hcls
  have htrim : goTrimSpace q = q :=
    goTrimSpace_of_no_space q fun c hc => isIdChar_not_space c (hall c hc)
  have hq : q ≠ [] := by
    intro hnil
    rw [hnil] at h11
    simp at h11
  have hisrc : isrcMatch q = false := by
    unfold isrcMatch
    simp [h11]
  have hmarker : queryHasIsrcMarker q = false := by
    by_contra hcon
    have hsw : goStartsWith (goStr (r"isrc:")) (goToLower q) = true := by
      revert hcon
      unfold queryHasIsrcMarker
      cases goStartsWith (goStr (r"isrc:")) (goToLower q) <;> simp
    have h4 := goStartsWith_getElem? (goStr (r"isrc:")) (goToLower q) hsw 4 (by decide)
    have hsub : (goStr (r"isrc:"))[4]? = some 58 := by decide
    rw [hsub] at h4
    unfold goToLower at h4
    rw [List.getElem?_map] at h4
    cases hq4 : q[4]? with
    | none =>
        rw [hq4] at h4
        simp at h4
    | some c =>
        rw [hq4] at h4
        simp at h4
        have hc : c ∈ q := List.getElem?_mem hq4
        exact isIdChar_toLower_ne_colon c (hall c hc) h4
  have hdirect : directVideoIdMatch q = true := by
    unfold directVideoIdMatch
    simp [h11, hcls]
  constructor
  · unfold classifySearchQuery
    rw [if_neg (by rw [htrim]; exact hq)]
    dsimp only
    rw [hisrc, hmarker]
    simp [hdirect]
  · intro t ht
    unfold directLookupResponse
    dsimp only
    rw [if_neg ht]
    exact ⟨rfl, rfl⟩

/-- A concrete track used by the C6 witness. -/
def demoTrack : YouTubeTrack :=
  { title := goStr (r"Demo")
    author := goStr (r"Author")
    identifier := goStr (r"dQw4w9WgXcQ")
    images := []
    length := 201000
    uri := goStr (r"https://www.youtube.com/watch?v=dQw4w9WgXcQ")
    trackType := goStr (r"video")
    views := []
    channelId := []
    isLive := false }

/-- Witness for C6 at a concrete 11-character identifier, on both channel
endpoints, with a successful metadata fetch. -/
theorem direct_video_id_shortcut_witness :
    classifySearchQuery SearchType.youtube (goStr (r"dQw4w9WgXcQ")) =
      SearchRoute.direct (goStr (r"dQw4w9WgXcQ")) ∧
    classifySearchQuery SearchType.youtubeMusic (goStr (r"dQw4w9WgXcQ")) =
      SearchRoute.direct (goStr (r"dQw4w9WgXcQ")) ∧
    directLookupResponse (Except.ok demoTrack) = Except.ok [demoTrack] ∧
    ([demoTrack] : List YouTubeTrack).length = 1 := by
  refine ⟨(direct_video_id_shortcut SearchType.youtube (goStr (r"dQw4w9WgXcQ"))
      (by decide) (by decide)).1,
    (direct_video_id_shortcut SearchType.youtubeMusic (goStr (r"dQw4w9WgXcQ"))
      (by decide) (by decide)).1,
    (direct_video_id_shortcut SearchType.youtube (goStr (r"dQw4w9WgXcQ"))
      (by decide) (by decide)).2 demoTrack (by decide)⟩

end YtSearch
